import Mathlib

/-!
Verification of the weekly meal-planner repository
(`meal_planner_email_fast.py` and `meal_planner_email_static.py`).

Python strings are modelled as `List Char` so that every operation is
kernel-computable.  The repository's data is plain text, so Python's
`str.strip()` / `str.lower()` are modelled by their character-wise
counterparts, and Python's lexicographic string comparison by the
lexicographic order on `List Char`.
-/

namespace Cardapio

/-- Python `str` is modelled as a list of characters. -/
abbrev Str := List Char

/-- Embed a Lean string literal into the model type. -/
def str (s : String) : Str := s.toList

/-- Python `str.strip()`: drop leading and trailing whitespace. -/
def pyStrip (s : Str) : Str :=
  ((s.dropWhile Char.isWhitespace).reverse.dropWhile Char.isWhitespace).reverse

/-- Python `str.lower()` (character-wise lowering, as in the repository's data). -/
def pyLower (s : Str) : Str := s.map Char.toLower

/-- `item.strip().lower()`, the deduplication key used by `build_menu`
(line 148 of meal_planner_email_fast.py). -/
def pyKey (s : Str) : Str := pyLower (pyStrip s)

/-- The comparison performed by `sorted(..., key=lambda s: s.lower())`
(line 151): case-insensitive lexicographic order. -/
def ciLE (a b : Str) : Prop := pyLower a ≤ pyLower b

instance : DecidableRel ciLE :=
  fun a b => inferInstanceAs (Decidable (pyLower a ≤ pyLower b))

instance : IsTotal Str ciLE := ⟨fun a b => le_total (pyLower a) (pyLower b)⟩

instance : IsTrans Str ciLE := ⟨fun _ _ _ h h' => le_trans h h'⟩

/-- Lines 146–151 of meal_planner_email_fast.py:

```
normalized = {}
for item in all_ingredients:
    key = item.strip().lower()
    if key not in normalized:
        normalized[key] = item.strip()
unique_ingredients = sorted(normalized.values(), key=lambda s: s.lower())
```

The Python `dict` (insertion-ordered) is modelled as an association list
appended at the tail; `sorted`, a stable sort, is modelled by the stable
`List.insertionSort`. -/
def dedupe_ingredients (all_ingredients : List Str) : List Str :=
  let normalized := all_ingredients.foldl
    (fun d item =>
      if pyKey item ∈ d.map Prod.fst then d
      else d ++ [(pyKey item, pyStrip item)])
    ([] : List (Str × Str))
  List.insertionSort ciLE (normalized.map Prod.snd)

/-- The deduplication step of `build_menu` viewed as a function of the
per-recipe ingredient lists: `all_ingredients` is their concatenation in
completion order (the `all_ingredients.extend(ingredients)` of line 142). -/
def dedupe (lists : List (List Str)) : List Str :=
  dedupe_ingredients lists.flatten

/-- First-seen-per-key filtering, stated from the spec's words
("for each, compute its normalized key (trim + case-fold); keep only the
first-seen original value per key", §4.4): `seen` is the set of keys already
encountered, and each kept value is the trimmed original. -/
def firstSeenValues (seen : List Str) : List Str → List Str
  | [] => []
  | x :: xs =>
    if pyKey x ∈ seen then firstSeenValues seen xs
    else pyStrip x :: firstSeenValues (pyKey x :: seen) xs

lemma firstSeenValues_congr (xs : List Str) :
    ∀ s₁ s₂ : List Str, (∀ k, k ∈ s₁ ↔ k ∈ s₂) →
      firstSeenValues s₁ xs = firstSeenValues s₂ xs := by
  induction xs with
  | nil => intro s₁ s₂ _; rfl
  | cons x xs ih =>
    intro s₁ s₂ h
    by_cases hx : pyKey x ∈ s₁
    · rw [firstSeenValues, if_pos hx, firstSeenValues, if_pos ((h _).mp hx),
        ih s₁ s₂ h]
    · rw [firstSeenValues, if_neg hx, firstSeenValues,
        if_neg (fun hc => hx ((h _).mpr hc))]
      exact congrArg _ (ih _ _ (by intro k; simp [h k]))

lemma foldl_dict_map_snd (xs : List Str) :
    ∀ d : List (Str × Str),
      ((xs.foldl
          (fun d item =>
            if pyKey item ∈ d.map Prod.fst then d
            else d ++ [(pyKey item, pyStrip item)]) d).map Prod.snd)
        = d.map Prod.snd ++ firstSeenValues (d.map Prod.fst) xs := by
  induction xs with
  | nil => intro d; simp [firstSeenValues]
  | cons x xs ih =>
    intro d
    by_cases hx : pyKey x ∈ d.map Prod.fst
    · rw [List.foldl_cons]
      simp only [hx, if_true]
      rw [ih d, firstSeenValues, if_pos hx]
    · rw [List.foldl_cons]
      simp only [hx, if_false]
      rw [ih (d ++ [(pyKey x, pyStrip x)]), firstSeenValues, if_neg hx]
      simp only [List.map_append, List.map_cons, List.map_nil]
      rw [firstSeenValues_congr xs (d.map Prod.fst ++ [pyKey x])
            (pyKey x :: d.map Prod.fst) (by intro k; simp [or_comm])]
      simp

/-- C1: for every sequence of per-recipe ingredient lists, the deduplication
step of `build_menu` flattens them in order and keeps, for each distinct
trimmed+case-folded key, only the first-seen trimmed original string (the
output is a permutation of `firstSeenValues [] lists.flatten`), the output is
sorted case-insensitively by the kept value, and in particular
`dedupe [["Eggs", "eggs ", "EGGS"]] = ["Eggs"]` and
`dedupe [["Salt", "Pepper", "apples"]] = ["apples", "Pepper", "Salt"]`. -/
theorem C1_dedupe_first_seen_and_sorted (lists : List (List Str)) :
    List.Sorted ciLE (dedupe lists)
      ∧ (dedupe lists).Perm (firstSeenValues [] lists.flatten)
      ∧ dedupe [[str "Eggs", str "eggs ", str "EGGS"]] = [str "Eggs"]
      ∧ dedupe [[str "Salt", str "Pepper", str "apples"]]
          = [str "apples", str "Pepper", str "Salt"] := by
  refine ⟨List.sorted_insertionSort ciLE _, ?_, by decide, by decide⟩
  have h := foldl_dict_map_snd lists.flatten []
  simp only [List.map_nil, List.nil_append] at h
  simp only [dedupe, dedupe_ingredients, h]
  exact List.perm_insertionSort ciLE _

/-- Result of one `parse_recipe(url)` call as observed by `build_menu`:
either the `(name, ingredients)` pair or a raised exception (its message). -/
abbrev FetchResult := Except Str (Str × List Str)

/-- Lines 126–152 of meal_planner_email_fast.py (`build_menu`), with the
nondeterministic parts passed as parameters: `order` is the completion
order of the sampled futures (`as_completed(future_to_url)`), and `fetch`
is `parse_recipe` including its network call.  The loop body appends
`(name, url)` to `menu` and extends `all_ingredients` on success, and only
prints on failure (`except Exception`).  The second component of the
result records the URLs submitted to the executor — `[]` when the length
guard raises first, before any fetch is attempted. -/
def build_menu (urls : List Str) (order : List Str) (fetch : Str → FetchResult) :
    Except Str (List (Str × Str) × List Str) × List Str :=
  if urls.length < 5 then
    (.error (str "Não foram encontradas receitas suficientes para montar o cardápio."), [])
  else
    let acc := order.foldl
      (fun (acc : List (Str × Str) × List Str) url =>
        match fetch url with
        | .ok (name, ingredients) => (acc.1 ++ [(name, url)], acc.2 ++ ingredients)
        | .error _ => acc)
      ([], [])
    (.ok (acc.1, dedupe_ingredients acc.2), order)

/-- The menu entries contributed by the successful fetches, in completion
order; failed URLs contribute nothing. -/
def successEntries (fetch : Str → FetchResult) (order : List Str) : List (Str × Str) :=
  order.filterMap (fun url =>
    match fetch url with
    | .ok p => some (p.1, url)
    | .error _ => none)

/-- The ingredient lists contributed by the successful fetches, in
completion order. -/
def successIngredients (fetch : Str → FetchResult) (order : List Str) : List (List Str) :=
  order.filterMap (fun url => (fetch url).toOption.map Prod.snd)

lemma build_menu_foldl (fetch : Str → FetchResult) (order : List Str) :
    ∀ m i, order.foldl
        (fun (acc : List (Str × Str) × List Str) url =>
          match fetch url with
          | .ok (name, ingredients) => (acc.1 ++ [(name, url)], acc.2 ++ ingredients)
          | .error _ => acc)
        (m, i)
      = (m ++ successEntries fetch order,
         i ++ (successIngredients fetch order).flatten) := by
  induction order with
  | nil => intro m i; simp [successEntries, successIngredients]
  | cons u rest ih =>
    intro m i
    cases h : fetch u with
    | ok p =>
      simp only [List.foldl_cons, h]
      rw [ih]
      simp [successEntries, successIngredients, h, Except.toOption]
    | error e =>
      simp only [List.foldl_cons, h]
      rw [ih]
      simp [successEntries, successIngredients, h, Except.toOption]

lemma successEntries_length (fetch : Str → FetchResult) (order : List Str) :
    (successEntries fetch order).length
      = (order.filter (fun url => (fetch url).isOk)).length := by
  induction order with
  | nil => rfl
  | cons u rest ih =>
    cases h : fetch u with
    | ok p => simp [successEntries, List.filter_cons, h, Except.isOk, Except.toBool] at ih ⊢; omega
    | error e => simp [successEntries, List.filter_cons, h, Except.isOk, Except.toBool] at ih ⊢; omega

/-- C2: when at least 5 candidates exist, `build_menu` submits every URL of
the batch, each fetch failure is swallowed by the local `except` handler
(the batch is not aborted), the returned menu consists exactly of the
successful fetches in completion order, the aggregated ingredients come
only from the successes, and if the batch has 5 URLs of which exactly one
fails, the menu has 4 entries. -/
theorem C2_failure_isolation (urls order : List Str) (fetch : Str → FetchResult)
    (h5 : 5 ≤ urls.length) :
    (build_menu urls order fetch).1
        = .ok (successEntries fetch order,
               dedupe_ingredients (successIngredients fetch order).flatten)
      ∧ (build_menu urls order fetch).2 = order
      ∧ (order.length = 5 →
          (order.filter (fun url => !(fetch url).isOk)).length = 1 →
          (successEntries fetch order).length = 4) := by
  have hguard : ¬ urls.length < 5 := by omega
  refine ⟨?_, ?_, ?_⟩
  · simp only [build_menu, if_neg hguard, build_menu_foldl fetch order [] []]
    simp
  · simp [build_menu, if_neg hguard]
  · intro hlen hfail
    have := List.length_eq_length_filter_add (l := order)
      (fun url => (fetch url).isOk)
    rw [successEntries_length]
    omega

/-- Witness for C2: five candidate URLs, a batch of five of which exactly
the second fails; the menu consists of the four successes and the
ingredients come only from them. -/
theorem C2_failure_isolation_witness :
    5 ≤ ([str "a", str "b", str "c", str "d", str "e"] : List Str).length
      ∧ (build_menu [str "a", str "b", str "c", str "d", str "e"]
            [str "a", str "b", str "c", str "d", str "e"]
            (fun url =>
              if url = str "b" then .error (str "boom")
              else .ok (str "N" ++ url, [str "i" ++ url]))).1
          = .ok (successEntries
                  (fun url =>
                    if url = str "b" then .error (str "boom")
                    else .ok (str "N" ++ url, [str "i" ++ url]))
                  [str "a", str "b", str "c", str "d", str "e"],
                 dedupe_ingredients (successIngredients
                  (fun url =>
                    if url = str "b" then .error (str "boom")
                    else .ok (str "N" ++ url, [str "i" ++ url]))
                  [str "a", str "b", str "c", str "d", str "e"]).flatten)
      ∧ (successEntries
            (fun url =>
              if url = str "b" then .error (str "boom")
              else .ok (str "N" ++ url, [str "i" ++ url]))
            [str "a", str "b", str "c", str "d", str "e"]).length = 4 := by
  have h := C2_failure_isolation
    [str "a", str "b", str "c", str "d", str "e"]
    [str "a", str "b", str "c", str "d", str "e"]
    (fun url =>
      if url = str "b" then .error (str "boom")
      else .ok (str "N" ++ url, [str "i" ++ url]))
    (by decide)
  exact ⟨by decide, h.1, h.2.2 (by decide) (by decide)⟩

/-- C8: whenever fewer than 5 candidate URLs are available, `build_menu`
raises the insufficient-candidates `RuntimeError` before any fetch is
attempted (the fetch trace is empty) and produces no menu or ingredient
list, independently of the fetch behaviour and completion order. -/
theorem C8_insufficient_candidates (urls order : List Str) (fetch : Str → FetchResult)
    (h : urls.length < 5) :
    build_menu urls order fetch
      = (.error (str "Não foram encontradas receitas suficientes para montar o cardápio."),
         []) := by
  simp [build_menu, if_pos h]

/-- Witness for C8: three candidates make `build_menu` fail up front with
an empty fetch trace. -/
theorem C8_insufficient_candidates_witness :
    ([str "a", str "b", str "c"] : List Str).length < 5
      ∧ build_menu [str "a", str "b", str "c"] [str "a"]
          (fun _ => .ok (str "N", [str "i"]))
        = (.error (str "Não foram encontradas receitas suficientes para montar o cardápio."),
           []) :=
  ⟨by decide, C8_insufficient_candidates _ _ _ (by decide)⟩

/-- `dias_semana` of `compose_email` (lines 160–166). -/
def dias_semana : List Str :=
  [str "Segunda-feira", str "Terça-feira", str "Quarta-feira",
   str "Quinta-feira", str "Sexta-feira"]

/-- The `linhas` list built by `compose_email` (lines 167–174): a greeting,
one line `f"{dia}: {nome} — {url}"` per menu entry with
`dia = dias_semana[idx % len(dias_semana)]`, the unconditional
`"\nLista de compras:"` line, and one `f"- {item}"` line per ingredient. -/
def compose_email_linhas (menu : List (Str × Str)) (ingredients : List Str) : List Str :=
  [str "Olá! Aqui está o cardápio semanal sugerido:\n"]
    ++ menu.enum.map (fun p =>
        dias_semana.getD (p.1 % dias_semana.length) []
          ++ str ": " ++ p.2.1 ++ str " — " ++ p.2.2)
    ++ [str "\nLista de compras:"]
    ++ ingredients.map (fun item => str "- " ++ item)

/-- Python `"\n".join(linhas)`. -/
def joinLines (linhas : List Str) : Str :=
  (linhas.intersperse (str "\n")).flatten

/-- `compose_email` (line 175): the joined message body. -/
def compose_email (menu : List (Str × Str)) (ingredients : List Str) : Str :=
  joinLines (compose_email_linhas menu ingredients)

set_option maxRecDepth 10000 in
/-- C3 counterexample: with five menu entries and an empty ingredient list,
`compose_email` still emits the shopping-list section header
`"\nLista de compras:"` (it is the last line of `linhas` and the body ends
with it), contradicting the claim that no shopping-list section is emitted
when the ingredients sequence is empty. -/
theorem C3_counterexample_header_always_emitted :
    (compose_email_linhas [(str "A", str "ua"), (str "B", str "ub"), (str "C", str "uc"),
        (str "D", str "ud"), (str "E", str "ue")] []).getLast?
        = some (str "\nLista de compras:")
      ∧ compose_email [(str "A", str "ua"), (str "B", str "ub"), (str "C", str "uc"),
          (str "D", str "ud"), (str "E", str "ue")] []
        = str "Olá! Aqui está o cardápio semanal sugerido:\n\nSegunda-feira: A — ua\nTerça-feira: B — ub\nQuarta-feira: C — uc\nQuinta-feira: D — ud\nSexta-feira: E — ue\n\nLista de compras:" := by
  exact ⟨by decide, by decide⟩

/-- C3 (amended): for every menu of 5 entries and every ingredient list,
`compose_email` assigns entry 0 to Monday through entry 4 to Friday
strictly by input position, renders one line per day as
`"<Weekday>: <name> — <url>"`, renders one bulleted line per deduplicated
ingredient in the given order, and always emits the shopping-list header
line — also when the ingredients sequence is empty, in which case the
section simply has no bullets. -/
theorem C3_compose_email_amended (a b c d e : Str × Str) (ingredients : List Str) :
    compose_email_linhas [a, b, c, d, e] ingredients
      = [str "Olá! Aqui está o cardápio semanal sugerido:\n",
         str "Segunda-feira: " ++ a.1 ++ str " — " ++ a.2,
         str "Terça-feira: " ++ b.1 ++ str " — " ++ b.2,
         str "Quarta-feira: " ++ c.1 ++ str " — " ++ c.2,
         str "Quinta-feira: " ++ d.1 ++ str " — " ++ d.2,
         str "Sexta-feira: " ++ e.1 ++ str " — " ++ e.2,
         str "\nLista de compras:"]
        ++ ingredients.map (fun item => str "- " ++ item) := rfl

/-- C9: `compose_email` is total in the menu length and assigns entry `i`
the weekday at index `i % 5`: line `1 + i` of the body is
`dias_semana[i % 5] ++ ": " ++ name ++ " — " ++ url`, for menus of any
length, so weekday names repeat cyclically on menus longer than 5 instead
of being rejected. -/
theorem C9_weekday_cyclic (menu : List (Str × Str)) (ingredients : List Str)
    (i : Nat) (h : i < menu.length) :
    (compose_email_linhas menu ingredients).getD (1 + i) []
      = dias_semana.getD (i % 5) [] ++ str ": "
          ++ (menu.getD i ([], [])).1 ++ str " — " ++ (menu.getD i ([], [])).2 := by
  unfold compose_email_linhas
  rw [List.append_assoc, List.append_assoc]
  have h1 : (1 + i : Nat) = i + 1 := Nat.add_comm 1 i
  rw [h1, List.singleton_append, List.getD_cons_succ]
  have hm : i < (menu.enum.map (fun p =>
      dias_semana.getD (p.1 % dias_semana.length) []
        ++ str ": " ++ p.2.1 ++ str " — " ++ p.2.2)).length := by
    simpa using h
  rw [List.getD_append _ _ _ i hm, List.getD_eq_getElem _ _ hm, List.getElem_map,
    List.getElem_enum, List.getD_eq_getElem _ _ h]
  simp [dias_semana]

/-- Witness for C9: on a 6-entry menu the sixth entry (index 5) is labelled
Monday again, and the line renders from the entry at that position. -/
theorem C9_weekday_cyclic_witness :
    (5 : Nat) < (List.replicate 6 (str "N", str "u")).length
      ∧ ((compose_email_linhas (List.replicate 6 (str "N", str "u")) []).getD (1 + 5) []
          = dias_semana.getD (5 % 5) [] ++ str ": "
              ++ ((List.replicate 6 (str "N", str "u")).getD 5 ([], [])).1 ++ str " — "
              ++ ((List.replicate 6 (str "N", str "u")).getD 5 ([], [])).2)
      ∧ (compose_email_linhas (List.replicate 6 (str "N", str "u")) []).getD 6 []
          = str "Segunda-feira: N — u" :=
  ⟨by decide, C9_weekday_cyclic (List.replicate 6 (str "N", str "u")) [] 5 (by decide),
   by decide⟩

/-- Python `needle in haystack` for strings: substring test. -/
def pyInStr (needle hay : Str) : Bool :=
  hay.tails.any (fun t => needle.isPrefixOf t)

/-- What `json.loads(script_tag.string)` yields in `parse_recipe`
(lines 96–102). -/
inductive ScriptData
  /-- `json.loads` raises `JSONDecodeError`, caught at line 101. -/
  | notJson
  /-- valid JSON that is not an object; `data.get("name", ...)` then raises
  `AttributeError`, which `parse_recipe` does not catch. -/
  | nonObject
  /-- a JSON object whose optional `name` and `recipeIngredient` fields
  are well-typed (a string and a list of strings).  Objects whose
  `recipeIngredient` holds some other JSON value are covered by the
  general `ScriptDataJ` model below, of which this type is the
  list-valued restriction (`parse_recipe_json_agrees`). -/
  | object (name : Option Str) (recipeIngredient : Option (List Str))

/-- One `h2`/`h3`/`h4`/`h5` heading: its raw `get_text()` and, when some
`ul` follows it in the document, the raw texts of that list's `li` items. -/
structure Heading where
  text : Str
  nextUl : Option (List Str)

/-- A successfully fetched (2xx) recipe page, reduced to the features that
`parse_recipe` inspects. -/
structure Page where
  /-- text of the `<title>` tag when present (`get_text(strip=True)` is
  modelled as trimming it). -/
  title : Option Str
  /-- the `script` tag with id `js_recipe_schema`, when present with a
  non-`None` `.string`, described by what its content decodes to. -/
  script : Option ScriptData
  headings : List Heading
  /-- raw text of every `li` on the page, in document order. -/
  listItems : List Str

/-- Exceptions `parse_recipe` can raise besides the network errors of
`requests` (which happen before the page exists). -/
inductive PyError
  /-- Python `AttributeError` (calling `.get` on a non-dict). -/
  | attributeError
deriving DecidableEq

/-- Tiers 2 and 3 of `parse_recipe` (lines 103–116): the heading-adjacent
`ul` items where the heading text contains "Ingrediente", each
`li.get_text(strip=True)` kept only when non-empty; if that produced
nothing, every `li` of the page under the same trimming and filtering. -/
def fallbackIngredients (page : Page) : List Str :=
  let fromHeadings := page.headings.foldl
    (fun acc h =>
      if pyInStr (str "Ingrediente") h.text then
        match h.nextUl with
        | some lis => acc ++ (lis.map pyStrip).filter (fun t => !t.isEmpty)
        | none => acc
      else acc)
    []
  if fromHeadings.isEmpty then
    (page.listItems.map pyStrip).filter (fun t => !t.isEmpty)
  else fromHeadings

/-- Lines 89–117 of meal_planner_email_fast.py (`parse_recipe`), after a
successful fetch: the name falls back from the structured block to the
trimmed title and then to the URL; the structured ingredients are used
verbatim when non-empty, otherwise the HTML fallback runs.  A structured
block holding valid non-object JSON raises `AttributeError` (uncaught). -/
def parse_recipe (url : Str) (page : Page) : Except PyError (Str × List Str) :=
  let recipe_name :=
    match page.title with
    | some t => pyStrip t
    | none => url
  match page.script with
  | some ScriptData.nonObject => .error PyError.attributeError
  | some (ScriptData.object n ri) =>
    let ingredients := ri.getD []
    .ok (n.getD recipe_name,
         if ingredients.isEmpty then fallbackIngredients page else ingredients)
  | _ => .ok (recipe_name, fallbackIngredients page)

/-- The ingredients obtained from the structured-data block alone (the
value of `ingredients` after line 102, before any HTML fallback). -/
def tier1Ingredients (page : Page) : List Str :=
  match page.script with
  | some (ScriptData.object _ ri) => ri.getD []
  | _ => []

lemma head?_dropWhile_ws (l : Str) (c : Char)
    (h : (l.dropWhile Char.isWhitespace).head? = some c) : c.isWhitespace = false := by
  have hw := List.head?_dropWhile_not Char.isWhitespace l
  rw [h] at hw
  exact hw

lemma pyStrip_getLast? (x : Str) (c : Char) (h : (pyStrip x).getLast? = some c) :
    c.isWhitespace = false := by
  unfold pyStrip at h
  rw [List.getLast?_reverse] at h
  exact head?_dropWhile_ws _ _ h

lemma pyStrip_head? (x : Str) (c : Char) (h : (pyStrip x).head? = some c) :
    c.isWhitespace = false := by
  unfold pyStrip at h
  rw [List.head?_reverse] at h
  obtain ⟨t, ht⟩ := List.dropWhile_suffix
    (l := (x.dropWhile Char.isWhitespace).reverse) Char.isWhitespace
  have hlast : ((x.dropWhile Char.isWhitespace).reverse).getLast? = some c := by
    rw [← ht, List.getLast?_append, h]
    rfl
  rw [List.getLast?_reverse] at hlast
  exact head?_dropWhile_ws _ _ hlast

/-- The trimmed-and-non-empty property claimed for ingredient strings. -/
def TrimmedNonEmpty (s : Str) : Prop :=
  s ≠ [] ∧ (∀ c, s.head? = some c → c.isWhitespace = false)
    ∧ (∀ c, s.getLast? = some c → c.isWhitespace = false)

lemma mem_strip_filter {lis : List Str} {s : Str}
    (h : s ∈ (lis.map pyStrip).filter (fun t => !t.isEmpty)) :
    TrimmedNonEmpty s := by
  rw [List.mem_filter] at h
  obtain ⟨hm, hne⟩ := h
  obtain ⟨x, _, rfl⟩ := List.mem_map.mp hm
  refine ⟨?_, fun c => pyStrip_head? x c, fun c => pyStrip_getLast? x c⟩
  simpa [List.isEmpty_iff] using hne

lemma headingFold_trimmed (hs : List Heading) :
    ∀ acc : List Str, (∀ s ∈ acc, TrimmedNonEmpty s) →
      ∀ s ∈ hs.foldl
        (fun acc h =>
          if pyInStr (str "Ingrediente") h.text then
            match h.nextUl with
            | some lis => acc ++ (lis.map pyStrip).filter (fun t => !t.isEmpty)
            | none => acc
          else acc)
        acc, TrimmedNonEmpty s := by
  induction hs with
  | nil => intro acc hacc s hs; exact hacc s hs
  | cons h hs ih =>
    intro acc hacc s hmem
    rw [List.foldl_cons] at hmem
    refine ih _ ?_ s hmem
    by_cases hin : pyInStr (str "Ingrediente") h.text
    · simp only [hin, if_true]
      cases hul : h.nextUl with
      | none => exact hacc
      | some lis =>
        intro u hu
        rcases List.mem_append.mp hu with hu | hu
        · exact hacc u hu
        · exact mem_strip_filter hu
    · simpa [hin] using hacc

lemma fallbackIngredients_trimmed (page : Page) :
    ∀ s ∈ fallbackIngredients page, TrimmedNonEmpty s := by
  intro s hs
  unfold fallbackIngredients at hs
  by_cases hh : (page.headings.foldl
      (fun acc h =>
        if pyInStr (str "Ingrediente") h.text then
          match h.nextUl with
          | some lis => acc ++ (lis.map pyStrip).filter (fun t => !t.isEmpty)
          | none => acc
        else acc)
      []).isEmpty
  · rw [if_pos hh] at hs
    exact mem_strip_filter hs
  · rw [if_neg hh] at hs
    exact headingFold_trimmed page.headings [] (by intro u hu; cases hu) s hs

/-- C4 counterexample: a page whose structured-data block lists
`" Eggs "` and `""` as ingredients makes `parse_recipe` return them
verbatim — with leading/trailing whitespace and an empty entry —
contradicting the claim that every returned ingredient string is trimmed
and non-empty regardless of the producing tier. -/
theorem C4_counterexample_structured_tier_untrimmed :
    parse_recipe (str "u")
        { title := some (str "T"),
          script := some (ScriptData.object none (some [str " Eggs ", str ""])),
          headings := [], listItems := [] }
      = .ok (str "T", [str " Eggs ", str ""])
      ∧ (str " Eggs ").head? = some ' '
      ∧ (' '.isWhitespace = true)
      ∧ (str "" : Str) = [] := by
  exact ⟨rfl, rfl, rfl, rfl⟩

/-- C4 (amended): whenever the structured-data tier produced no
ingredients (so the returned list comes from the heading-adjacent tier or
the any-list-item fallback), every returned ingredient string is
non-empty and has no leading or trailing whitespace.  Ingredients coming
from the structured-data block are returned verbatim and need not be
trimmed or non-empty. -/
theorem C4_fallback_ingredients_trimmed (url : Str) (page : Page)
    (name : Str) (ings : List Str)
    (hok : parse_recipe url page = .ok (name, ings))
    (h1 : tier1Ingredients page = []) :
    ∀ s ∈ ings, TrimmedNonEmpty s := by
  unfold parse_recipe at hok
  cases hscript : page.script with
  | none =>
    rw [hscript] at hok
    simp only [Except.ok.injEq, Prod.mk.injEq] at hok
    obtain ⟨-, rfl⟩ := hok
    exact fallbackIngredients_trimmed page
  | some sd =>
    cases sd with
    | notJson =>
      rw [hscript] at hok
      simp only [Except.ok.injEq, Prod.mk.injEq] at hok
      obtain ⟨-, rfl⟩ := hok
      exact fallbackIngredients_trimmed page
    | nonObject =>
      rw [hscript] at hok
      cases hok
    | object n ri =>
      have hri : ri.getD [] = [] := by
        unfold tier1Ingredients at h1
        rw [hscript] at h1
        exact h1
      rw [hscript] at hok
      simp only [hri, List.isEmpty_nil, if_true, Except.ok.injEq, Prod.mk.injEq] at hok
      obtain ⟨-, rfl⟩ := hok
      exact fallbackIngredients_trimmed page

/-- Witness for C4 (amended): a page with no structured ingredients and a
heading-adjacent list containing `" Sal "` and `"  "` yields exactly the
trimmed non-empty `"Sal"`, which satisfies the trimmed/non-empty
property. -/
theorem C4_fallback_ingredients_trimmed_witness :
    parse_recipe (str "u")
        { title := some (str "T"), script := none,
          headings := [{ text := str "Ingredientes", nextUl := some [str " Sal ", str "  "] }],
          listItems := [str " x "] }
      = .ok (str "T", [str "Sal"])
      ∧ tier1Ingredients
          { title := some (str "T"), script := none,
            headings := [{ text := str "Ingredientes", nextUl := some [str " Sal ", str "  "] }],
            listItems := [str " x "] } = []
      ∧ ∀ s ∈ [str "Sal"], TrimmedNonEmpty s :=
  ⟨rfl, rfl,
   C4_fallback_ingredients_trimmed (str "u")
     { title := some (str "T"), script := none,
       headings := [{ text := str "Ingredientes", nextUl := some [str " Sal ", str "  "] }],
       listItems := [str " x "] }
     (str "T") [str "Sal"] rfl rfl⟩

/-- C5 counterexample: a page whose structured-data block contains valid
JSON that is not an object (e.g. a bare JSON array) makes `parse_recipe`
raise `AttributeError` at `data.get("name", ...)`, so parse ambiguity can
make the function fail even though the fetch succeeded. -/
theorem C5_counterexample_nonobject_json_raises :
    parse_recipe (str "u")
        { title := some (str "T"), script := some ScriptData.nonObject,
          headings := [], listItems := [] }
      = .error PyError.attributeError := rfl

/-- A JSON value as `data.get("recipeIngredient", [])` can produce it
(line 100).  Arrays carry their elements (string-valued, as on the real
pages); a nested object is not listed separately because everything
`parse_recipe` does with the value — truthiness and whether `.append`
exists — treats it like the other non-list values (`{}` behaves like
`""`/`0`/`null`/`false`; a non-empty object like a non-empty string). -/
inductive JsonVal
  | list (xs : List Str)
  | str (s : Str)
  | num (n : Int)
  | bool (b : Bool)
  | null
deriving DecidableEq

/-- Python truthiness of such a value (`if not ingredients:`, line 103). -/
def JsonVal.truthy : JsonVal → Bool
  | JsonVal.list xs => !xs.isEmpty
  | JsonVal.str s => !s.isEmpty
  | JsonVal.num n => n != 0
  | JsonVal.bool b => b
  | JsonVal.null => false

/-- Whether the value is a Python list — the only case in which
`ingredients.append(text)` exists instead of raising `AttributeError`. -/
def JsonVal.isList : JsonVal → Bool
  | JsonVal.list _ => true
  | _ => false

/-- `ScriptData` with a general `recipeIngredient` field: what
`json.loads` yields without assuming the object is well-typed. -/
inductive ScriptDataJ
  /-- `json.loads` raises `JSONDecodeError`, caught at line 101. -/
  | notJson
  /-- valid JSON that is not an object; `data.get("name", ...)` raises
  `AttributeError`, uncaught. -/
  | nonObject
  /-- a JSON object with its optional `name` field and its
  `recipeIngredient` field holding an arbitrary JSON value. -/
  | object (name : Option Str) (recipeIngredient : Option JsonVal)
deriving DecidableEq

/-- A successfully fetched recipe page in the general model. -/
structure PageJ where
  title : Option Str
  script : Option ScriptDataJ
  headings : List Heading
  listItems : List Str

/-- The page with the structured-data block forgotten: the HTML features
(headings, list items, title) that the fallback tiers read. -/
def PageJ.core (p : PageJ) : Page :=
  { title := p.title, script := none, headings := p.headings, listItems := p.listItems }

/-- Lines 89–117 of meal_planner_email_fast.py again, now without assuming
the structured block's `recipeIngredient` is a string list.  A truthy
value of any type is returned verbatim (line 103's guard is false).  When
the block provides a falsy non-list value, `if not ingredients:` runs the
HTML tiers with `ingredients` still bound to that value, so the first
`ingredients.append(text)` — in whichever tier first collects an item —
raises an uncaught `AttributeError`; if neither tier collects anything,
no append runs and the falsy value is returned verbatim. -/
def parse_recipe_json (url : Str) (page : PageJ) : Except PyError (Str × JsonVal) :=
  let recipe_name :=
    match page.title with
    | some t => pyStrip t
    | none => url
  match page.script with
  | some ScriptDataJ.nonObject => .error PyError.attributeError
  | some (ScriptDataJ.object n ri) =>
    let recipe_name := n.getD recipe_name
    let ingredients := ri.getD (JsonVal.list [])
    if ingredients.truthy then .ok (recipe_name, ingredients)
    else
      match ingredients with
      | JsonVal.list _ => .ok (recipe_name, JsonVal.list (fallbackIngredients page.core))
      | v =>
        if (fallbackIngredients page.core).isEmpty then .ok (recipe_name, v)
        else .error PyError.attributeError
  | _ => .ok (recipe_name, JsonVal.list (fallbackIngredients page.core))

/-- Embedding of the list-valued restriction into the general model. -/
def ScriptData.toJ : ScriptData → ScriptDataJ
  | ScriptData.notJson => ScriptDataJ.notJson
  | ScriptData.nonObject => ScriptDataJ.nonObject
  | ScriptData.object n ri => ScriptDataJ.object n (ri.map JsonVal.list)

/-- Embedding of a restricted page into the general model. -/
def Page.toJ (p : Page) : PageJ :=
  { title := p.title, script := p.script.map ScriptData.toJ,
    headings := p.headings, listItems := p.listItems }

/-- On pages whose structured `recipeIngredient` field is a string list
(or absent), the general model agrees with `parse_recipe`: the restricted
model is exactly `parse_recipe_json` on that subspace. -/
lemma parse_recipe_json_agrees (url : Str) (page : Page) :
    parse_recipe_json url page.toJ
      = (parse_recipe url page).map (fun r => (r.1, JsonVal.list r.2)) := by
  cases hs : page.script with
  | none =>
    simp [parse_recipe_json, parse_recipe, Page.toJ, PageJ.core, hs, Except.map,
      fallbackIngredients]
  | some sd =>
    cases sd with
    | notJson =>
      simp [parse_recipe_json, parse_recipe, Page.toJ, PageJ.core, hs,
        ScriptData.toJ, Except.map, fallbackIngredients]
    | nonObject =>
      simp [parse_recipe_json, parse_recipe, Page.toJ, PageJ.core, hs,
        ScriptData.toJ, Except.map, fallbackIngredients]
    | object n ri =>
      cases ri with
      | none =>
        simp [parse_recipe_json, parse_recipe, Page.toJ, PageJ.core, hs,
          ScriptData.toJ, JsonVal.truthy, Except.map, fallbackIngredients]
      | some xs =>
        by_cases hxs : xs.isEmpty <;>
          simp [parse_recipe_json, parse_recipe, Page.toJ, PageJ.core, hs,
            ScriptData.toJ, JsonVal.truthy, hxs, Except.map, fallbackIngredients]

/-- C5 (amended): `parse_recipe` returns a best-effort result unless
(1) the structured-data block decodes to valid non-object JSON, raising
`AttributeError` at `data.get("name", ...)`, or (2) it decodes to an
object whose `recipeIngredient` is a falsy non-list value (such as `""`,
`0`, `{}`, `null` or `false`) on a page where the HTML fallback tiers
collect at least one item, raising `AttributeError` at
`ingredients.append(text)`; in particular a block `{"recipeIngredient": ""}`
together with one non-empty `li` raises. -/
theorem C5_parse_failure_characterisation (url : Str) (page : PageJ) :
    ((parse_recipe_json url page).isOk = true
        ↔ (page.script ≠ some ScriptDataJ.nonObject
            ∧ ∀ n v, page.script = some (ScriptDataJ.object n (some v)) →
                v.isList = false → v.truthy = false →
                fallbackIngredients page.core = []))
      ∧ parse_recipe_json (str "u")
          { title := some (str "T"),
            script := some (ScriptDataJ.object none (some (JsonVal.str (str "")))),
            headings := [], listItems := [str "x"] }
        = .error PyError.attributeError := by
  constructor
  · cases hs : page.script with
    | none => simp [parse_recipe_json, hs, Except.isOk, Except.toBool]
    | some sd =>
      cases sd with
      | notJson => simp [parse_recipe_json, hs, Except.isOk, Except.toBool]
      | nonObject => simp [parse_recipe_json, hs, Except.isOk, Except.toBool]
      | object n ri =>
        cases ri with
        | none =>
          simp [parse_recipe_json, hs, Except.isOk, Except.toBool, JsonVal.truthy]
        | some v =>
          cases v with
          | list xs =>
            by_cases hxs : xs.isEmpty <;>
              simp [parse_recipe_json, hs, Except.isOk, Except.toBool,
                JsonVal.truthy, JsonVal.isList, hxs]
          | str s =>
            by_cases hstr : s.isEmpty
            · by_cases hf : fallbackIngredients page.core = [] <;>
                simp [parse_recipe_json, hs, Except.isOk, Except.toBool,
                  JsonVal.truthy, JsonVal.isList, hstr, hf, List.isEmpty_iff]
            · simp [parse_recipe_json, hs, Except.isOk, Except.toBool,
                JsonVal.truthy, JsonVal.isList, hstr]
          | num m =>
            by_cases hm : m = 0
            · by_cases hf : fallbackIngredients page.core = [] <;>
                simp [parse_recipe_json, hs, Except.isOk, Except.toBool,
                  JsonVal.truthy, JsonVal.isList, hm, hf, List.isEmpty_iff]
            · simp [parse_recipe_json, hs, Except.isOk, Except.toBool,
                JsonVal.truthy, JsonVal.isList, hm]
          | bool b =>
            cases b with
            | false =>
              by_cases hf : fallbackIngredients page.core = [] <;>
                simp [parse_recipe_json, hs, Except.isOk, Except.toBool,
                  JsonVal.truthy, JsonVal.isList, hf, List.isEmpty_iff]
            | true =>
              simp [parse_recipe_json, hs, Except.isOk, Except.toBool,
                JsonVal.truthy, JsonVal.isList]
          | null =>
            by_cases hf : fallbackIngredients page.core = [] <;>
              simp [parse_recipe_json, hs, Except.isOk, Except.toBool,
                JsonVal.truthy, JsonVal.isList, hf, List.isEmpty_iff]
  · rfl

/-- Lines 64–72 of meal_planner_email_fast.py: walk the anchors' `href`
values in document order, keeping absolute `https://www.panelinha.com.br/receita/...`
links as-is and rewriting root-relative `/receita/...` links onto the
domain, then `list(dict.fromkeys(recipe_urls))` — first-seen-order
deduplication, modelled by the membership-checking fold. -/
def extract_recipe_urls (hrefs : List Str) : List Str :=
  let recipe_urls := hrefs.foldl
    (fun acc href =>
      if (str "https://www.panelinha.com.br/receita/").isPrefixOf href then
        acc ++ [href]
      else if (str "/receita/").isPrefixOf href then
        acc ++ [str "https://www.panelinha.com.br" ++ href]
      else acc)
    []
  recipe_urls.foldl (fun acc u => if u ∈ acc then acc else acc ++ [u]) []

/-- The recognized recipe-link pattern as the claim states it: an absolute
URL on the known domain under `/receita/`, kept unchanged, or a
root-relative `/receita/...` path rewritten to an absolute URL on that
domain; anything else is not a candidate. -/
def resolveHref (href : Str) : Option Str :=
  if (str "https://www.panelinha.com.br/receita/").isPrefixOf href then some href
  else if (str "/receita/").isPrefixOf href then
    some (str "https://www.panelinha.com.br" ++ href)
  else none

/-- First-seen-order deduplication as the claim states it: keep an element
iff its value has not been seen before. -/
def keepFirstOccAux (seen : List Str) : List Str → List Str
  | [] => []
  | x :: xs =>
    if x ∈ seen then keepFirstOccAux seen xs
    else x :: keepFirstOccAux (x :: seen) xs

/-- Each unique value exactly once, in first-seen order. -/
def keepFirstOcc (xs : List Str) : List Str := keepFirstOccAux [] xs

lemma keepFirstOccAux_congr (xs : List Str) :
    ∀ s₁ s₂ : List Str, (∀ k, k ∈ s₁ ↔ k ∈ s₂) →
      keepFirstOccAux s₁ xs = keepFirstOccAux s₂ xs := by
  induction xs with
  | nil => intro s₁ s₂ _; rfl
  | cons x xs ih =>
    intro s₁ s₂ h
    by_cases hx : x ∈ s₁
    · rw [keepFirstOccAux, if_pos hx, keepFirstOccAux, if_pos ((h _).mp hx),
        ih s₁ s₂ h]
    · rw [keepFirstOccAux, if_neg hx, keepFirstOccAux,
        if_neg (fun hc => hx ((h _).mpr hc))]
      exact congrArg _ (ih _ _ (by intro k; simp [h k]))

lemma collect_foldl (hrefs : List Str) :
    ∀ acc : List Str,
      hrefs.foldl
        (fun acc href =>
          if (str "https://www.panelinha.com.br/receita/").isPrefixOf href then
            acc ++ [href]
          else if (str "/receita/").isPrefixOf href then
            acc ++ [str "https://www.panelinha.com.br" ++ href]
          else acc)
        acc
      = acc ++ hrefs.filterMap resolveHref := by
  induction hrefs with
  | nil => intro acc; simp
  | cons h hs ih =>
    intro acc
    rw [List.foldl_cons]
    by_cases h1 : (str "https://www.panelinha.com.br/receita/").isPrefixOf h
    · simp only [h1, if_true]
      rw [ih]
      simp [resolveHref, h1]
    · by_cases h2 : (str "/receita/").isPrefixOf h
      · simp only [h1, if_false, h2, if_true]
        rw [ih]
        simp [resolveHref, h1, h2]
      · simp only [h1, if_false, h2]
        rw [ih]
        simp [resolveHref, h1, h2]

lemma dedup_foldl (xs : List Str) :
    ∀ acc : List Str,
      xs.foldl (fun acc u => if u ∈ acc then acc else acc ++ [u]) acc
        = acc ++ keepFirstOccAux acc xs := by
  induction xs with
  | nil => intro acc; simp [keepFirstOccAux]
  | cons x xs ih =>
    intro acc
    rw [List.foldl_cons]
    by_cases hx : x ∈ acc
    · simp only [hx, if_true]
      rw [ih, keepFirstOccAux, if_pos hx]
    · simp only [hx, if_false]
      rw [ih, keepFirstOccAux, if_neg hx,
        keepFirstOccAux_congr xs (acc ++ [x]) (x :: acc) (by intro k; simp [or_comm])]
      simp

lemma keepFirstOccAux_mem (xs : List Str) :
    ∀ seen u, u ∈ keepFirstOccAux seen xs ↔ (u ∈ xs ∧ u ∉ seen) := by
  induction xs with
  | nil => intro seen u; simp [keepFirstOccAux]
  | cons x xs ih =>
    intro seen u
    by_cases hx : x ∈ seen
    · rw [keepFirstOccAux, if_pos hx, ih]
      constructor
      · rintro ⟨h1, h2⟩; exact ⟨List.mem_cons_of_mem _ h1, h2⟩
      · rintro ⟨h1, h2⟩
        rcases List.mem_cons.mp h1 with rfl | h1
        · exact absurd hx h2
        · exact ⟨h1, h2⟩
    · rw [keepFirstOccAux, if_neg hx]
      constructor
      · intro h
        rcases List.mem_cons.mp h with rfl | h
        · exact ⟨List.mem_cons_self _ _, hx⟩
        · obtain ⟨h1, h2⟩ := (ih (x :: seen) u).mp h
          exact ⟨List.mem_cons_of_mem _ h1, fun hc => h2 (List.mem_cons_of_mem _ hc)⟩
      · rintro ⟨h1, h2⟩
        rcases List.mem_cons.mp h1 with rfl | h1
        · exact List.mem_cons_self _ _
        · by_cases hux : u = x
          · subst hux; exact List.mem_cons_self _ _
          · exact List.mem_cons_of_mem _
              ((ih (x :: seen) u).mpr ⟨h1, by simp [hux, h2]⟩)

lemma keepFirstOccAux_nodup (xs : List Str) :
    ∀ seen, (keepFirstOccAux seen xs).Nodup := by
  induction xs with
  | nil => intro seen; simp [keepFirstOccAux]
  | cons x xs ih =>
    intro seen
    by_cases hx : x ∈ seen
    · rw [keepFirstOccAux, if_pos hx]; exact ih seen
    · rw [keepFirstOccAux, if_neg hx]
      refine List.Nodup.cons ?_ (ih (x :: seen))
      intro hc
      exact ((keepFirstOccAux_mem xs (x :: seen) x).mp hc).2 (List.mem_cons_self _ _)

/-- C6: `get_recipe_urls`'s extraction step collects exactly the hyperlinks
matching the recognized recipe pattern (absolute on the known domain under
`/receita/`, or root-relative `/receita/...` rewritten onto the domain),
deduplicated to one occurrence per unique URL in first-seen order — its
output has no duplicates and is `keepFirstOcc` of the resolved links — and
in particular a URL appearing in both absolute and root-relative forms is
listed once. -/
theorem C6_extract_recipe_urls (hrefs : List Str) :
    extract_recipe_urls hrefs = keepFirstOcc (hrefs.filterMap resolveHref)
      ∧ (extract_recipe_urls hrefs).Nodup
      ∧ (∀ u, u ∈ extract_recipe_urls hrefs ↔ u ∈ hrefs.filterMap resolveHref)
      ∧ extract_recipe_urls
          [str "https://www.panelinha.com.br/receita/x", str "/receita/x",
           str "/receita/y", str "https://other.com/a", str "/blog/z"]
        = [str "https://www.panelinha.com.br/receita/x",
           str "https://www.panelinha.com.br/receita/y"] := by
  have heq : extract_recipe_urls hrefs = keepFirstOcc (hrefs.filterMap resolveHref) := by
    unfold extract_recipe_urls keepFirstOcc
    rw [collect_foldl hrefs [], List.nil_append, dedup_foldl, List.nil_append]
  refine ⟨heq, ?_, ?_, by decide⟩
  · rw [heq]; exact keepFirstOccAux_nodup _ []
  · intro u
    rw [heq]
    unfold keepFirstOcc
    rw [keepFirstOccAux_mem]
    simp

/-- What reading and JSON-decoding `receitas_cache.json` yields. -/
inductive CacheRead
  /-- the file does not exist (`os.path.exists` is false). -/
  | absent
  /-- opening or decoding it raises, caught by the bare `except` (line 58). -/
  | unreadable
  /-- it decodes to a JSON list of strings. -/
  | strList (urls : List Str)
  /-- it decodes to some other JSON value (`isinstance(urls, list)` fails). -/
  | nonList
deriving DecidableEq

/-- The outside world seen by `get_recipe_urls`: the cache artifact and
the blog listing page (its anchors' hrefs, or an HTTP/network failure). -/
structure Env where
  cache : CacheRead
  listing : Except Str (List Str)

/-- The no-usable-cache path of `get_recipe_urls` (lines 60–79): fetch the
listing page (propagating fetch failures), extract and deduplicate the
recipe links; the cache write is best-effort and ignored.  The boolean
records that the network was accessed. -/
def networkPath (env : Env) : Except Str (List Str × Bool) :=
  match env.listing with
  | .error e => .error e
  | .ok hrefs => .ok (extract_recipe_urls hrefs, true)

/-- Lines 43–79 of meal_planner_email_fast.py (`get_recipe_urls`): return
the cached list as-is when it exists, decodes to a list and is non-empty;
on any read/parse failure, absence, non-list or empty-list content, fall
through to the network path. -/
def get_recipe_urls (env : Env) : Except Str (List Str × Bool) :=
  match env.cache with
  | CacheRead.strList urls =>
    if urls.isEmpty then networkPath env else .ok (urls, false)
  | CacheRead.absent => networkPath env
  | CacheRead.unreadable => networkPath env
  | CacheRead.nonList => networkPath env

/-- C7: whenever the cache artifact exists and decodes to a non-empty list
of strings, `get_recipe_urls` returns exactly that list unchanged with no
network access; and a cache read/parse failure is swallowed — the
function behaves exactly as if the cache were absent, proceeding to the
network path. -/
theorem C7_cache_behaviour (env : Env) (urls : List Str)
    (hc : env.cache = CacheRead.strList urls) (hne : urls ≠ []) :
    get_recipe_urls env = .ok (urls, false)
      ∧ (∀ env' : Env, env'.cache = CacheRead.unreadable →
          get_recipe_urls env' = get_recipe_urls { env' with cache := CacheRead.absent }) := by
  constructor
  · unfold get_recipe_urls
    rw [hc]
    simp [List.isEmpty_iff, hne]
  · intro env' hc'
    unfold get_recipe_urls
    rw [hc']
    simp [networkPath]

/-- Witness for C7: a cache holding two URLs is returned unchanged without
network access, while an unreadable cache falls through to the network. -/
theorem C7_cache_behaviour_witness :
    (Env.mk (CacheRead.strList [str "u1", str "u2"]) (.ok [])).cache
        = CacheRead.strList [str "u1", str "u2"]
      ∧ ([str "u1", str "u2"] : List Str) ≠ []
      ∧ get_recipe_urls (Env.mk (CacheRead.strList [str "u1", str "u2"]) (.ok []))
          = .ok ([str "u1", str "u2"], false)
      ∧ (∀ env' : Env, env'.cache = CacheRead.unreadable →
          get_recipe_urls env' = get_recipe_urls { env' with cache := CacheRead.absent }) := by
  have h := C7_cache_behaviour
    (Env.mk (CacheRead.strList [str "u1", str "u2"]) (.ok []))
    [str "u1", str "u2"] rfl (by decide)
  exact ⟨rfl, by decide, h.1, h.2⟩

/-- `DIAS_UTEIS` of meal_planner_email_static.py (line 32). -/
def DIAS_UTEIS : List Str :=
  [str "Segunda-feira", str "Terça-feira", str "Quarta-feira",
   str "Quinta-feira", str "Sexta-feira"]

/-- The loop of `compose_email_body` in meal_planner_email_static.py
(lines 63–68), one line per entry starting at weekday index `idx`:
`DIAS_UTEIS[idx]` raises `IndexError` past Friday (modelled as `none`);
with a non-empty URL the line is `f"{dia}: {name} — {url}"`, with an
empty URL it is `f"{dia}: {name}"`. -/
def staticLines (idx : Nat) : List (Str × Str) → Option (List Str)
  | [] => some []
  | (name, url) :: rest =>
    match DIAS_UTEIS.get? idx with
    | none => none
    | some dia =>
      (staticLines (idx + 1) rest).map
        (fun ls =>
          (if url.isEmpty then dia ++ str ": " ++ name
           else dia ++ str ": " ++ name ++ str " — " ++ url) :: ls)

/-- `compose_email_body` of the static variant (lines 61–69): greeting,
blank line, then the day lines, joined with newlines. -/
def compose_email_body (menu : List (Str × Str)) : Option Str :=
  (staticLines 0 menu).map (fun ls =>
    joinLines
      ([str "Olá! Aqui está o cardápio semanal (sem lista de ingredientes):", str ""] ++ ls))

lemma staticLines_get? (menu : List (Str × Str)) :
    ∀ (idx0 i : Nat) (name url : Str) (ls : List Str),
      menu.get? i = some (name, url) →
      staticLines idx0 menu = some ls →
      ls.get? i = some (if url.isEmpty then DIAS_UTEIS.getD (idx0 + i) [] ++ str ": " ++ name
        else DIAS_UTEIS.getD (idx0 + i) [] ++ str ": " ++ name ++ str " — " ++ url) := by
  induction menu with
  | nil => intro idx0 i name url ls hget _; cases hget
  | cons p rest ih =>
    intro idx0 i name url ls hget hls
    obtain ⟨n, u⟩ := p
    rw [staticLines] at hls
    cases hdia : DIAS_UTEIS.get? idx0 with
    | none => rw [hdia] at hls; cases hls
    | some dia =>
      rw [hdia] at hls
      cases hrest : staticLines (idx0 + 1) rest with
      | none => rw [hrest] at hls; cases hls
      | some ls' =>
        rw [hrest] at hls
        simp only [Option.map_some', Option.some.injEq] at hls
        subst hls
        cases i with
        | zero =>
          simp only [List.get?_cons_zero, Option.some.injEq, Prod.mk.injEq] at hget
          obtain ⟨rfl, rfl⟩ := hget
          have : DIAS_UTEIS.getD (idx0 + 0) [] = dia := by
            rw [List.get?_eq_getElem?] at hdia
            simp [List.getD, hdia]
          rw [List.get?_cons_zero, this]
        | succ i =>
          rw [List.get?_cons_succ] at hget
          rw [List.get?_cons_succ]
          have := ih (idx0 + 1) i name url ls' hget hrest
          rw [this]
          have harith : idx0 + 1 + i = idx0 + (i + 1) := by omega
          rw [harith]

/-- C10: in the static-catalog variant, `compose_email_body` renders an
entry with a non-empty URL as `"<Weekday>: <name> — <url>"` but an entry
whose URL is the empty string as `"<Weekday>: <name>"` with no `" — "`
separator, so the per-line rendering differs between empty and non-empty
URLs; the rendered day lines are then joined after the greeting and blank
line. -/
theorem C10_static_empty_url_rendering (menu : List (Str × Str)) (i : Nat)
    (name url : Str) (ls : List Str)
    (hget : menu.get? i = some (name, url))
    (hls : staticLines 0 menu = some ls) :
    ls.get? i = some (if url.isEmpty then DIAS_UTEIS.getD i [] ++ str ": " ++ name
        else DIAS_UTEIS.getD i [] ++ str ": " ++ name ++ str " — " ++ url)
      ∧ compose_email_body menu
        = some (joinLines
            ([str "Olá! Aqui está o cardápio semanal (sem lista de ingredientes):", str ""]
              ++ ls)) := by
  constructor
  · have := staticLines_get? menu 0 i name url ls hget hls
    simpa using this
  · unfold compose_email_body
    rw [hls]
    rfl

/-- Witness for C10: a two-entry menu whose first entry has a URL and whose
second has the empty string renders Monday with the `" — "` separator and
Tuesday without it. -/
theorem C10_static_empty_url_rendering_witness :
    ([(str "A", str "u"), (str "B", str "")] : List (Str × Str)).get? 1
        = some (str "B", str "")
      ∧ staticLines 0 [(str "A", str "u"), (str "B", str "")]
        = some [str "Segunda-feira: A — u", str "Terça-feira: B"]
      ∧ ([str "Segunda-feira: A — u", str "Terça-feira: B"] : List Str).get? 1
        = some (if (str "").isEmpty then DIAS_UTEIS.getD 1 [] ++ str ": " ++ str "B"
            else DIAS_UTEIS.getD 1 [] ++ str ": " ++ str "B" ++ str " — " ++ str "")
      ∧ compose_email_body [(str "A", str "u"), (str "B", str "")]
        = some (joinLines
            ([str "Olá! Aqui está o cardápio semanal (sem lista de ingredientes):", str ""]
              ++ [str "Segunda-feira: A — u", str "Terça-feira: B"])) := by
  have h := C10_static_empty_url_rendering [(str "A", str "u"), (str "B", str "")] 1
    (str "B") (str "") [str "Segunda-feira: A — u", str "Terça-feira: B"] rfl rfl
  exact ⟨rfl, rfl, h.1, h.2⟩

end Cardapio
